import Mathlib

/-!
Verification of the spatial zone-detection and ranking engine of the
farm-map repository.  The definitions below are shallow embeddings of the
JavaScript source:

* `distanceKm`, `computeHighDensityZones`, `applyFilter` embed the
  radius-linkage pipeline of `farm-map/app.js` (APP VERSION 0-2, identical
  in the 0-3 variant).
* `clusterRescoreZones` embeds the cluster-rescoring pipeline of the 0-1
  variant.
* `loadFarmFilter` and `createZones` embed the grid bucketer of
  `farm-map-game/farm-map-zones/app.js`.

Coordinates and probabilities are modelled as rationals (the JSON decimal
literals are exact rationals); the transcendental haversine distance is
modelled over the reals.  JavaScript `Array.prototype.sort` with the
comparator `(a, b) => b.score - a.score` is a stable descending sort per
the ECMAScript specification, embedded as the stable insertion sort
`sortDescBy`.
-/

set_option maxHeartbeats 1000000

namespace FarmMap

/-- A latitude/longitude pair in degrees, as passed to `distanceKm`. -/
structure Point where
  lat : ℚ
  lng : ℚ
  deriving DecidableEq, Repr

/-- A loaded farm record: `{id, lat, lng, probability}` from the dataset. -/
structure Candidate where
  id : Int
  lat : ℚ
  lng : ℚ
  prob : ℚ
  deriving DecidableEq, Repr

/-- The marker position, as returned by `getLatLng()`. -/
def Candidate.loc (c : Candidate) : Point := ⟨c.lat, c.lng⟩

/-- `const RADIUS_KM = 5` — clustering radius of the radius-linkage strategy. -/
def RADIUS_KM : ℝ := 5

/-- `const MIN_POINTS = 2` — minimum farms to form a zone. -/
def MIN_POINTS : Nat := 2

/-- JavaScript `Math.atan2 y x` for real (non-NaN) arguments. -/
noncomputable def atan2 (y x : ℝ) : ℝ :=
  if 0 < x then Real.arctan (y / x)
  else if x < 0 then
    (if 0 ≤ y then Real.arctan (y / x) + Real.pi else Real.arctan (y / x) - Real.pi)
  else if 0 < y then Real.pi / 2
  else if y < 0 then -(Real.pi / 2)
  else 0

/-- The haversine argument `x` computed inside `distanceKm`:
`Math.sin(dLat/2)**2 + Math.sin(dLng/2)**2 * Math.cos(lat1) * Math.cos(lat2)`. -/
noncomputable def haversineX (a b : Point) : ℝ :=
  Real.sin (((b.lat : ℝ) - (a.lat : ℝ)) * Real.pi / 180 / 2) ^ 2 +
    Real.sin (((b.lng : ℝ) - (a.lng : ℝ)) * Real.pi / 180 / 2) ^ 2 *
      Real.cos ((a.lat : ℝ) * Real.pi / 180) * Real.cos ((b.lat : ℝ) * Real.pi / 180)

/-- `function distanceKm(a, b)` of `farm-map/app.js` (lines 150-162):
`return 2 * R * Math.atan2(Math.sqrt(x), Math.sqrt(1 - x))` with `R = 6371`.
Note: the source applies no clamping to `x`. -/
noncomputable def distanceKm (a b : Point) : ℝ :=
  2 * 6371 * atan2 (Real.sqrt (haversineX a b)) (Real.sqrt (1 - haversineX a b))

/-- The boolean membership test `distanceKm(center, n.getLatLng()) <= RADIUS_KM`. -/
noncomputable def nearKm (a b : Point) : Bool :=
  @decide (distanceKm a b ≤ RADIUS_KM) (Classical.dec _)

/-- The members joined by the inner `strong.forEach((n, j) => ...)` scan of
`computeHighDensityZones`: starting from the seed at index `i`, every
not-yet-used candidate within the radius of the seed's position joins the
cluster (and is marked used, tracked by the parallel `joinUsed`). -/
def joinMembers (near : Point → Point → Bool) (center : Point) (i : Nat) :
    List (Nat × Candidate) → List Nat → List (Nat × Candidate)
  | [], _ => []
  | (j, n) :: rest, used =>
    if i = j ∨ j ∈ used then
      joinMembers near center i rest used
    else if near center n.loc then
      (j, n) :: joinMembers near center i rest (j :: used)
    else
      joinMembers near center i rest used

/-- The used set after the inner scan: the same control flow as
`joinMembers`, returning the updated used set instead of the joined members. -/
def joinUsed (near : Point → Point → Bool) (center : Point) (i : Nat) :
    List (Nat × Candidate) → List Nat → List Nat
  | [], used => used
  | (j, n) :: rest, used =>
    if i = j ∨ j ∈ used then
      joinUsed near center i rest used
    else if near center n.loc then
      joinUsed near center i rest (j :: used)
    else
      joinUsed near center i rest used

/-- The outer `strong.forEach((m, i) => ...)` loop: each unused candidate
seeds a cluster consisting of itself plus the members joined by the inner
scan. -/
def buildClustersAux (near : Point → Point → Bool) (all : List (Nat × Candidate)) :
    List (Nat × Candidate) → List Nat → List (List (Nat × Candidate))
  | [], _ => []
  | (i, m) :: rest, used =>
    if i ∈ used then
      buildClustersAux near all rest used
    else
      ((i, m) :: joinMembers near m.loc i all (i :: used)) ::
        buildClustersAux near all rest (joinUsed near m.loc i all (i :: used))

/-- All clusters produced by the greedy radius-linkage double loop (including
those later discarded for being smaller than `MIN_POINTS`), in discovery
order, with each member tagged by its index in the `strong` list. -/
def buildClusters (near : Point → Point → Bool) (items : List (Nat × Candidate)) :
    List (List (Nat × Candidate)) :=
  buildClustersAux near items items []

/-- A zone record pushed by the 0-2 variant:
`{center, total: members.length, score: members.length}`. -/
structure Zone where
  center : Point
  total : Nat
  score : ℚ
  deriving DecidableEq, Repr

/-- Builds the zone record of a qualifying cluster: the center is the
arithmetic mean of the member latitudes and longitudes. -/
def mkZone (members : List Candidate) : Zone :=
  { center := ⟨(members.map Candidate.lat).sum / (members.length : ℚ),
               (members.map Candidate.lng).sum / (members.length : ℚ)⟩,
    total := members.length,
    score := (members.length : ℚ) }

/-- Stable insertion into a descending-sorted list: `z` is placed before the
first element of strictly smaller score, hence after all earlier elements of
equal score. -/
def insertDescBy {α β : Type} [LinearOrder β] (score : α → β) (z : α) :
    List α → List α
  | [] => [z]
  | y :: ys => if score y < score z then z :: y :: ys else y :: insertDescBy score z ys

/-- Stable descending sort by a score projection, the behaviour mandated for
`Array.prototype.sort` with comparator `(a, b) => score(b) - score(a)`. -/
def sortDescBy {α β : Type} [LinearOrder β] (score : α → β) (l : List α) : List α :=
  l.foldl (fun acc z => insertDescBy score z acc) []

/-- The tail of `computeHighDensityZones` after the double loop: keep clusters
with at least `MIN_POINTS` members, build zone records, return early if none,
otherwise sort descending by score and keep the first 8
(`zones.sort((a, b) => b.score - a.score); zones.slice(0, 8)`). -/
def zonesFromClusters (clusters : List (List (Nat × Candidate))) : List Zone :=
  let zones := (clusters.filter (fun cl => decide (MIN_POINTS ≤ cl.length))).map
      (fun cl => mkZone (cl.map Prod.snd))
  if zones.isEmpty then [] else (sortDescBy Zone.score zones).take 8

/-- `function computeHighDensityZones()` of the 0-2 variant (lines 164-248),
as the pure function from the loaded marker list to the zone list it stores in
`window.farmZones` (the `zonesEnabled` gate is modelled in
`recomputeFarmZones`).  It filters the full marker list at the hardcoded
threshold `m.farmProbability >= 0.9`, returns `[]` when fewer than two strong
markers exist, and otherwise runs the greedy radius-linkage grouping. -/
def computeHighDensityZones (near : Point → Point → Bool)
    (allMarkers : List Candidate) : List Zone :=
  let strong := allMarkers.filter (fun m => decide ((0.9 : ℚ) ≤ m.prob))
  if strong.length < 2 then [] else zonesFromClusters (buildClusters near strong.enum)

/-- The effect of one call of `computeHighDensityZones()` on
`window.farmZones`: when zones are enabled the list is reset to `[]` and
rebuilt from scratch; when disabled the zone layer is cleared but
`window.farmZones` is left untouched. -/
def recomputeFarmZones (near : Point → Point → Bool) (allMarkers : List Candidate)
    (zonesEnabled : Bool) (prevZones : List Zone) : List Zone :=
  if zonesEnabled then computeHighDensityZones near allMarkers else prevZones

/-- The marker set kept by `applyFilter(minP)`:
`allMarkers.forEach(m => { if (m.farmProbability >= minP) ... })`. -/
def applyFilter (minP : ℚ) (allMarkers : List Candidate) : List Candidate :=
  allMarkers.filter (fun m => decide (minP ≤ m.prob))

/-- The module-level mutable state touched by `applyFilter`. -/
structure AppState where
  allMarkers : List Candidate
  displayed : List Candidate
  farmZones : List Zone
  zonesEnabled : Bool
  deriving Repr

/-- One run of `applyFilter(minP)`: rebuild the displayed layers from
`allMarkers` at threshold `minP`, then call `computeHighDensityZones()`,
which reads the full `allMarkers` list (not the filtered layers). -/
def applyFilterState (near : Point → Point → Bool) (minP : ℚ) (st : AppState) :
    AppState :=
  { st with
    displayed := applyFilter minP st.allMarkers,
    farmZones := recomputeFarmZones near st.allMarkers st.zonesEnabled st.farmZones }

/-- A zone record of the 0-1 cluster-rescoring variant:
`{center, total, high90, score: high90 * Math.log(total + 1)}`. -/
structure RZone where
  center : Point
  total : Nat
  high90 : Nat
  score : ℝ

/-- `computeHighDensityZones()` of the 0-1 variant (lines 557-620), as a pure
function of the externally maintained visual clusters (each given by its
position and child markers): clusters with fewer than 4 markers or no ≥ 0.9
marker are skipped, the rest are scored by `high90 * Math.log(total + 1)`,
sorted descending and truncated to the first 8. -/
noncomputable def clusterRescoreZones (visualClusters : List (Point × List Candidate)) :
    List RZone :=
  let candidates := visualClusters.filterMap (fun e =>
    if e.2.length < 4 then none
    else
      let high90 := (e.2.filter (fun m => decide ((0.9 : ℚ) ≤ m.prob))).length
      if high90 < 1 then none
      else some { center := e.1, total := e.2.length, high90 := high90,
                  score := (high90 : ℝ) * Real.log ((e.2.length : ℝ) + 1) })
  if candidates.isEmpty then [] else (sortDescBy RZone.score candidates).take 8

/-- `MIN_FARM_PROBABILITY: 0.5` from `GAME_CONSTANTS`. -/
def MIN_FARM_PROBABILITY : ℚ := 0.5

/-- `ZONE_GRID_SIZE: 0.5` degrees from `GAME_CONSTANTS`. -/
def ZONE_GRID_SIZE : ℚ := 0.5

/-- `MIN_ZONE_FARMS: 10` from `GAME_CONSTANTS`. -/
def MIN_ZONE_FARMS : Nat := 10

/-- The candidate pre-filter of `loadFarmData()`:
`data.Farms.filter(f => f.farm_probability > GAME_CONSTANTS.MIN_FARM_PROBABILITY)`.
Note the comparison is strict (`>`). -/
def loadFarmFilter (farms : List Candidate) : List Candidate :=
  farms.filter (fun f => decide (MIN_FARM_PROBABILITY < f.prob))

/-- The bucket key of `createZones()`:
`gridX = Math.floor(farm.lng / gridSize); gridY = Math.floor(farm.lat / gridSize)`. -/
def gridKey (f : Candidate) : Int × Int :=
  (Int.floor (f.lng / ZONE_GRID_SIZE), Int.floor (f.lat / ZONE_GRID_SIZE))

/-- Appends a farm to its bucket in the insertion-ordered bucket map
(`zoneMap[key].farms.push(farm)`), creating the bucket on first use. -/
def bucketInsert (key : Int × Int) (f : Candidate) :
    List ((Int × Int) × List Candidate) → List ((Int × Int) × List Candidate)
  | [] => [(key, [f])]
  | (k, fs) :: rest =>
    if k = key then (k, fs ++ [f]) :: rest else (k, fs) :: bucketInsert key f rest

/-- The `allFarms.forEach(...)` bucketing loop of `createZones()`; the result
models `Object.entries(zoneMap)` in key-insertion order. -/
def buildZoneMap (farms : List Candidate) : List ((Int × Int) × List Candidate) :=
  farms.foldl (fun m f => bucketInsert (gridKey f) f m) []

/-- A grid zone record: member farms, centroid and average probability. -/
structure GZone where
  farms : List Candidate
  centerLat : ℚ
  centerLng : ℚ
  avgProb : ℚ
  deriving DecidableEq, Repr

/-- The per-bucket record built by `createZones()`: centroid coordinates and
average probability are arithmetic means over the bucket members. -/
def mkGZone (fs : List Candidate) : GZone :=
  { farms := fs,
    centerLat := (fs.map Candidate.lat).sum / (fs.length : ℚ),
    centerLng := (fs.map Candidate.lng).sum / (fs.length : ℚ),
    avgProb := (fs.map Candidate.prob).sum / (fs.length : ℚ) }

/-- `function createZones()` of `farm-map-game/farm-map-zones/app.js`
(lines 187-237): bucket all farms by grid cell, build per-bucket records,
drop buckets with fewer than `MIN_ZONE_FARMS` members, and sort the rest by
descending member count (`.sort((a, b) => b.farms.length - a.farms.length)`). -/
def createZones (allFarms : List Candidate) : List GZone :=
  let zoneMap := buildZoneMap allFarms
  let zs := zoneMap.map (fun e => mkGZone e.2)
  sortDescBy (fun z => z.farms.length)
    (zs.filter (fun z => decide (MIN_ZONE_FARMS ≤ z.farms.length)))

/-- Scenario candidate `(id=1, lat 10.0, lng 10.0, p 0.95)`. -/
def cand1 : Candidate := ⟨1, 10, 10, 0.95⟩

/-- Scenario candidate `(id=2, lat 10.01, lng 10.01, p 0.92)`. -/
def cand2 : Candidate := ⟨2, 10.01, 10.01, 0.92⟩

/-- Scenario candidate `(id=3, lat 50.0, lng 50.0, p 0.99)`. -/
def cand3 : Candidate := ⟨3, 50, 50, 0.99⟩

/-- Ten farms (distinct ids, duplicate positions are allowed by the core) that
all fall in the grid cell with key `(20, 20)`. -/
def farmsTen : List Candidate :=
  [⟨0, 10, 10, 1⟩, ⟨1, 10, 10, 1⟩, ⟨2, 10, 10, 1⟩, ⟨3, 10, 10, 1⟩, ⟨4, 10, 10, 1⟩,
   ⟨5, 10, 10, 1⟩, ⟨6, 10, 10, 1⟩, ⟨7, 10, 10, 1⟩, ⟨8, 10, 10, 1⟩, ⟨9, 10, 10, 1⟩]

/-! ### Real-analysis facts about the haversine distance -/

lemma arctan_le_self {t : ℝ} (ht : 0 ≤ t) : Real.arctan t ≤ t := by
  rcases eq_or_lt_of_le ht with h | h
  · rw [← h, Real.arctan_zero]
  · have h0 : 0 < Real.arctan t := by
      have h1 := Real.arctan_strictMono h
      rwa [Real.arctan_zero] at h1
    have h2 := Real.lt_tan h0 (Real.arctan_lt_pi_div_two t)
    rw [Real.tan_arctan] at h2
    exact le_of_lt h2

lemma le_arctan_of_tan_le {a t : ℝ} (h0 : 0 ≤ a) (h1 : a < Real.pi / 2)
    (h2 : Real.tan a ≤ t) : a ≤ Real.arctan t := by
  have hpi := Real.pi_pos
  have e : Real.arctan (Real.tan a) = a := Real.arctan_tan (by linarith) h1
  calc a = Real.arctan (Real.tan a) := e.symm
    _ ≤ Real.arctan t := Real.arctan_strictMono.monotone h2

lemma tan_small_le {a : ℝ} (h0 : 0 ≤ a) (h1 : a ≤ 1) : Real.tan a ≤ 2 * a := by
  have hpi := Real.pi_gt_three
  have h3 : Real.cos (Real.pi / 3) ≤ Real.cos a :=
    Real.cos_le_cos_of_nonneg_of_le_pi h0 (by linarith) (by linarith)
  rw [Real.cos_pi_div_three] at h3
  have hcpos : (0 : ℝ) < Real.cos a := by linarith
  have hs : Real.sin a ≤ a := Real.sin_le h0
  rw [Real.tan_eq_sin_div_cos, div_le_iff hcpos]
  nlinarith

lemma atan2_of_pos {y x : ℝ} (hx : 0 < x) : atan2 y x = Real.arctan (y / x) := by
  unfold atan2
  rw [if_pos hx]

lemma distanceKm_eq {a b : Point} (h : haversineX a b < 1) :
    distanceKm a b =
      12742 * Real.arctan (Real.sqrt (haversineX a b) / Real.sqrt (1 - haversineX a b)) := by
  unfold distanceKm
  rw [atan2_of_pos (Real.sqrt_pos.mpr (by linarith))]
  ring

lemma distanceKm_le_five {a b : Point} (h0 : 0 ≤ haversineX a b)
    (h1 : haversineX a b ≤ 1 / 64000000) : distanceKm a b ≤ 5 := by
  have hlt : haversineX a b < 1 := by linarith
  rw [distanceKm_eq hlt]
  have hs1 : Real.sqrt (haversineX a b) ≤ 1 / 8000 := by
    have hm : Real.sqrt (haversineX a b) ≤ Real.sqrt (1 / 64000000) := Real.sqrt_le_sqrt h1
    have e : Real.sqrt (1 / 64000000) = 1 / 8000 := by
      rw [show (1 / 64000000 : ℝ) = (1 / 8000) ^ 2 by norm_num]
      exact Real.sqrt_sq (by norm_num)
    linarith
  have hs2 : (7 : ℝ) / 10 ≤ Real.sqrt (1 - haversineX a b) := by
    rw [Real.le_sqrt (by norm_num) (by linarith)]
    nlinarith
  have hq : Real.sqrt (haversineX a b) / Real.sqrt (1 - haversineX a b) ≤ (1 / 8000) / (7 / 10) :=
    div_le_div (by norm_num) hs1 (by norm_num) hs2
  have ha : Real.arctan (Real.sqrt (haversineX a b) / Real.sqrt (1 - haversineX a b)) ≤
      (1 / 8000) / (7 / 10) :=
    le_trans (arctan_le_self (div_nonneg (Real.sqrt_nonneg _) (by linarith))) hq
  nlinarith [ha]

lemma five_lt_distanceKm {a b : Point} (h0 : 1 / 9 ≤ haversineX a b)
    (h1 : haversineX a b ≤ 1 / 4) : 5 < distanceKm a b := by
  have hlt : haversineX a b < 1 := by linarith
  rw [distanceKm_eq hlt]
  have hs1 : (1 : ℝ) / 3 ≤ Real.sqrt (haversineX a b) := by
    rw [Real.le_sqrt (by norm_num) (by linarith)]
    nlinarith
  have hs2 : Real.sqrt (1 - haversineX a b) ≤ 1 := by
    have h2 : Real.sqrt (1 - haversineX a b) ≤ Real.sqrt 1 := Real.sqrt_le_sqrt (by linarith)
    rwa [Real.sqrt_one] at h2
  have hs2' : (0 : ℝ) < Real.sqrt (1 - haversineX a b) := Real.sqrt_pos.mpr (by linarith)
  have hq : (1 : ℝ) / 3 ≤ Real.sqrt (haversineX a b) / Real.sqrt (1 - haversineX a b) := by
    rw [le_div_iff hs2']
    nlinarith [Real.sqrt_nonneg (haversineX a b)]
  have ht : Real.tan (1 / 1000) ≤ 1 / 3 := by
    have h4 := tan_small_le (show (0 : ℝ) ≤ 1 / 1000 by norm_num) (by norm_num)
    linarith
  have hpi := Real.pi_gt_three
  have ha : (1 : ℝ) / 1000 ≤
      Real.arctan (Real.sqrt (haversineX a b) / Real.sqrt (1 - haversineX a b)) :=
    le_arctan_of_tan_le (by norm_num) (by linarith) (le_trans ht hq)
  nlinarith [ha]

/-! ### Haversine bounds at the scenario points -/

lemma hx12_eq : haversineX (Candidate.loc cand1) (Candidate.loc cand2) =
    Real.sin (Real.pi / 36000) ^ 2 +
      Real.sin (Real.pi / 36000) ^ 2 * Real.cos (Real.pi / 18) *
        Real.cos (1001 * Real.pi / 18000) := by
  simp only [haversineX, Candidate.loc, cand1, cand2]
  have e1 : ((10.01 : ℚ) : ℝ) - ((10 : ℚ) : ℝ) = 1 / 100 := by norm_num
  have e2 : ((10.01 : ℚ) : ℝ) = 1001 / 100 := by norm_num
  have e3 : ((10 : ℚ) : ℝ) = 10 := by norm_num
  rw [e1, e2, e3]
  have a1 : (1 / 100 : ℝ) * Real.pi / 180 / 2 = Real.pi / 36000 := by ring
  have a2 : (10 : ℝ) * Real.pi / 180 = Real.pi / 18 := by ring
  have a3 : (1001 / 100 : ℝ) * Real.pi / 180 = 1001 * Real.pi / 18000 := by ring
  rw [a1, a2, a3]

lemma hx12_nonneg : 0 ≤ haversineX (Candidate.loc cand1) (Candidate.loc cand2) := by
  rw [hx12_eq]
  have hpi := Real.pi_pos
  have c1 : 0 ≤ Real.cos (Real.pi / 18) :=
    Real.cos_nonneg_of_mem_Icc ⟨by linarith, by linarith⟩
  have c2 : 0 ≤ Real.cos (1001 * Real.pi / 18000) :=
    Real.cos_nonneg_of_mem_Icc ⟨by linarith, by linarith⟩
  have t1 : 0 ≤ Real.sin (Real.pi / 36000) ^ 2 * Real.cos (Real.pi / 18) *
      Real.cos (1001 * Real.pi / 18000) :=
    mul_nonneg (mul_nonneg (sq_nonneg _) c1) c2
  nlinarith [sq_nonneg (Real.sin (Real.pi / 36000))]

lemma hx12_le : haversineX (Candidate.loc cand1) (Candidate.loc cand2) ≤ 1 / 64000000 := by
  rw [hx12_eq]
  have hpi := Real.pi_pos
  have hs0 : 0 ≤ Real.sin (Real.pi / 36000) :=
    Real.sin_nonneg_of_nonneg_of_le_pi (by positivity) (by linarith)
  have hs1 : Real.sin (Real.pi / 36000) ≤ Real.pi / 36000 := Real.sin_le (by positivity)
  have hsq : Real.sin (Real.pi / 36000) ^ 2 ≤ (7 / 80000 : ℝ) ^ 2 := by
    have hb : Real.sin (Real.pi / 36000) ≤ 7 / 80000 := by nlinarith [Real.pi_lt_d2]
    nlinarith
  have c1a : Real.cos (Real.pi / 18) ≤ 1 := Real.cos_le_one _
  have c2a : Real.cos (1001 * Real.pi / 18000) ≤ 1 := Real.cos_le_one _
  have c1b : 0 ≤ Real.cos (Real.pi / 18) :=
    Real.cos_nonneg_of_mem_Icc ⟨by linarith, by linarith⟩
  have c2b : 0 ≤ Real.cos (1001 * Real.pi / 18000) :=
    Real.cos_nonneg_of_mem_Icc ⟨by linarith, by linarith⟩
  have c12 : Real.cos (Real.pi / 18) * Real.cos (1001 * Real.pi / 18000) ≤ 1 :=
    mul_le_one c1a c2b c2a
  have key : Real.sin (Real.pi / 36000) ^ 2 *
      (Real.cos (Real.pi / 18) * Real.cos (1001 * Real.pi / 18000)) ≤
      Real.sin (Real.pi / 36000) ^ 2 * 1 :=
    mul_le_mul_of_nonneg_left c12 (sq_nonneg _)
  nlinarith [hsq, key]

lemma hx13_eq : haversineX (Candidate.loc cand1) (Candidate.loc cand3) =
    Real.sin (Real.pi / 9) ^ 2 +
      Real.sin (Real.pi / 9) ^ 2 * Real.cos (Real.pi / 18) * Real.cos (5 * Real.pi / 18) := by
  simp only [haversineX, Candidate.loc, cand1, cand3]
  have e1 : ((50 : ℚ) : ℝ) - ((10 : ℚ) : ℝ) = 40 := by norm_num
  have e2 : ((50 : ℚ) : ℝ) = 50 := by norm_num
  have e3 : ((10 : ℚ) : ℝ) = 10 := by norm_num
  rw [e1, e2, e3]
  have a1 : (40 : ℝ) * Real.pi / 180 / 2 = Real.pi / 9 := by ring
  have a2 : (10 : ℝ) * Real.pi / 180 = Real.pi / 18 := by ring
  have a3 : (50 : ℝ) * Real.pi / 180 = 5 * Real.pi / 18 := by ring
  rw [a1, a2, a3]

lemma hx13_lb : 1 / 9 ≤ haversineX (Candidate.loc cand1) (Candidate.loc cand3) := by
  rw [hx13_eq]
  have hpi := Real.pi_pos
  have h9a : (348 : ℝ) / 1000 ≤ Real.pi / 9 := by nlinarith [Real.pi_gt_d2]
  have h9b : Real.pi / 9 ≤ 35 / 100 := by nlinarith [Real.pi_lt_d2]
  have hcube : (Real.pi / 9) ^ 3 ≤ (35 / 100 : ℝ) ^ 3 :=
    pow_le_pow_left (by positivity) h9b 3
  have hs : (1 : ℝ) / 3 ≤ Real.sin (Real.pi / 9) := by
    have hx1 : (0 : ℝ) < Real.pi / 9 := by positivity
    have hx2 : Real.pi / 9 ≤ 1 := by linarith
    have h := @Real.sin_gt_sub_cube (Real.pi / 9) hx1 hx2
    nlinarith [h, hcube, h9a]
  have hs2 : (1 : ℝ) / 9 ≤ Real.sin (Real.pi / 9) ^ 2 := by nlinarith [hs]
  have c1 : 0 ≤ Real.cos (Real.pi / 18) :=
    Real.cos_nonneg_of_mem_Icc ⟨by linarith, by linarith⟩
  have c2 : 0 ≤ Real.cos (5 * Real.pi / 18) :=
    Real.cos_nonneg_of_mem_Icc ⟨by linarith, by linarith⟩
  have t1 : 0 ≤ Real.sin (Real.pi / 9) ^ 2 * Real.cos (Real.pi / 18) *
      Real.cos (5 * Real.pi / 18) :=
    mul_nonneg (mul_nonneg (sq_nonneg _) c1) c2
  linarith

lemma hx13_ub : haversineX (Candidate.loc cand1) (Candidate.loc cand3) ≤ 1 / 4 := by
  rw [hx13_eq]
  have hpi := Real.pi_pos
  have h0 : 0 ≤ Real.sin (Real.pi / 9) :=
    Real.sin_nonneg_of_nonneg_of_le_pi (by positivity) (by linarith)
  have h1 : Real.sin (Real.pi / 9) ≤ 35 / 100 := by
    have hb := Real.sin_le (show (0 : ℝ) ≤ Real.pi / 9 by positivity)
    nlinarith [Real.pi_lt_d2]
  have c1a : Real.cos (Real.pi / 18) ≤ 1 := Real.cos_le_one _
  have c2a : Real.cos (5 * Real.pi / 18) ≤ 1 := Real.cos_le_one _
  have c1b : 0 ≤ Real.cos (Real.pi / 18) :=
    Real.cos_nonneg_of_mem_Icc ⟨by linarith, by linarith⟩
  have c2b : 0 ≤ Real.cos (5 * Real.pi / 18) :=
    Real.cos_nonneg_of_mem_Icc ⟨by linarith, by linarith⟩
  have c12 : Real.cos (Real.pi / 18) * Real.cos (5 * Real.pi / 18) ≤ 1 :=
    mul_le_one c1a c2b c2a
  have key : Real.sin (Real.pi / 9) ^ 2 *
      (Real.cos (Real.pi / 18) * Real.cos (5 * Real.pi / 18)) ≤
      Real.sin (Real.pi / 9) ^ 2 * 1 :=
    mul_le_mul_of_nonneg_left c12 (sq_nonneg _)
  nlinarith [key, h0, h1]

lemma near12_true : nearKm (Candidate.loc cand1) (Candidate.loc cand2) = true := by
  unfold nearKm
  exact decide_eq_true (distanceKm_le_five hx12_nonneg hx12_le)

lemma near13_false : nearKm (Candidate.loc cand1) (Candidate.loc cand3) = false := by
  unfold nearKm
  exact decide_eq_false (not_le.mpr (five_lt_distanceKm hx13_lb hx13_ub))

/-! ### Evaluation of the radius-linkage pipeline on the scenario input -/

lemma strong_eval :
    [cand1, cand2, cand3].filter (fun m => decide ((0.9 : ℚ) ≤ m.prob)) =
      [cand1, cand2, cand3] := by
  norm_num [cand1, cand2, cand3]

lemma enum_eval : ([cand1, cand2, cand3]).enum = [(0, cand1), (1, cand2), (2, cand3)] := rfl

lemma clusters_eval :
    buildClusters nearKm [(0, cand1), (1, cand2), (2, cand3)] =
      [[(0, cand1), (1, cand2)], [(2, cand3)]] := by
  simp [buildClusters, buildClustersAux, joinMembers, joinUsed, near12_true, near13_false]

lemma zones_eval :
    zonesFromClusters [[(0, cand1), (1, cand2)], [(2, cand3)]] =
      [{ center := ⟨2001 / 200, 2001 / 200⟩, total := 2, score := 2 }] := by
  norm_num [zonesFromClusters, mkZone, sortDescBy, insertDescBy, MIN_POINTS,
    cand1, cand2, cand3]

/-! ### Invariants of the greedy radius-linkage double loop -/

lemma joinMembers_near (near : Point → Point → Bool) (center : Point) (i : Nat) :
    ∀ (items : List (Nat × Candidate)) (used : List Nat),
      ∀ x ∈ joinMembers near center i items used, near center x.2.loc = true := by
  intro items
  induction items with
  | nil => intro used x hx; simp [joinMembers] at hx
  | cons hd rest ih =>
    intro used x hx
    obtain ⟨j, n⟩ := hd
    simp only [joinMembers] at hx
    by_cases h1 : i = j ∨ j ∈ used
    · rw [if_pos h1] at hx
      exact ih used x hx
    · rw [if_neg h1] at hx
      by_cases h2 : near center n.loc = true
      · rw [if_pos h2] at hx
        rcases List.mem_cons.mp hx with hx0 | hx'
        · subst hx0
          exact h2
        · exact ih (j :: used) x hx'
      · rw [if_neg h2] at hx
        exact ih used x hx

lemma joinUsed_mono (near : Point → Point → Bool) (center : Point) (i : Nat) :
    ∀ (items : List (Nat × Candidate)) (used : List Nat),
      used ⊆ joinUsed near center i items used := by
  intro items
  induction items with
  | nil => intro used; simp [joinUsed]
  | cons hd rest ih =>
    intro used
    obtain ⟨j, n⟩ := hd
    simp only [joinUsed]
    by_cases h1 : i = j ∨ j ∈ used
    · rw [if_pos h1]; exact ih used
    · rw [if_neg h1]
      by_cases h2 : near center n.loc = true
      · rw [if_pos h2]
        intro a ha
        exact ih (j :: used) (List.mem_cons_of_mem j ha)
      · rw [if_neg h2]; exact ih used

lemma joinMembers_fresh (near : Point → Point → Bool) (center : Point) (i : Nat) :
    ∀ (items : List (Nat × Candidate)) (used : List Nat),
      ∀ x ∈ joinMembers near center i items used, x.1 ∉ used := by
  intro items
  induction items with
  | nil => intro used x hx; simp [joinMembers] at hx
  | cons hd rest ih =>
    intro used x hx
    obtain ⟨j, n⟩ := hd
    simp only [joinMembers] at hx
    by_cases h1 : i = j ∨ j ∈ used
    · rw [if_pos h1] at hx; exact ih used x hx
    · rw [if_neg h1] at hx
      by_cases h2 : near center n.loc = true
      · rw [if_pos h2] at hx
        rcases List.mem_cons.mp hx with hx0 | hx'
        · subst hx0
          exact fun hj => h1 (Or.inr hj)
        · have h3 := ih (j :: used) x hx'
          exact fun hj => h3 (List.mem_cons_of_mem j hj)
      · rw [if_neg h2] at hx; exact ih used x hx

lemma joinMembers_mem_used (near : Point → Point → Bool) (center : Point) (i : Nat) :
    ∀ (items : List (Nat × Candidate)) (used : List Nat),
      ∀ x ∈ joinMembers near center i items used,
        x.1 ∈ joinUsed near center i items used := by
  intro items
  induction items with
  | nil => intro used x hx; simp [joinMembers] at hx
  | cons hd rest ih =>
    intro used x hx
    obtain ⟨j, n⟩ := hd
    simp only [joinMembers] at hx
    simp only [joinUsed]
    by_cases h1 : i = j ∨ j ∈ used
    · rw [if_pos h1] at hx ⊢; exact ih used x hx
    · rw [if_neg h1] at hx ⊢
      by_cases h2 : near center n.loc = true
      · rw [if_pos h2] at hx ⊢
        rcases List.mem_cons.mp hx with hx0 | hx'
        · subst hx0
          exact joinUsed_mono near center i rest (j :: used) (List.mem_cons_self j used)
        · exact ih (j :: used) x hx'
      · rw [if_neg h2] at hx ⊢; exact ih used x hx

lemma buildClustersAux_shape (near : Point → Point → Bool) (all : List (Nat × Candidate)) :
    ∀ (rest : List (Nat × Candidate)) (used : List Nat),
      ∀ cl ∈ buildClustersAux near all rest used,
        ∃ s ms, cl = s :: ms ∧ ∀ x ∈ ms, near s.2.loc x.2.loc = true := by
  intro rest
  induction rest with
  | nil => intro used cl hcl; simp [buildClustersAux] at hcl
  | cons hd rest2 ih =>
    intro used cl hcl
    obtain ⟨i, m⟩ := hd
    simp only [buildClustersAux] at hcl
    by_cases h1 : i ∈ used
    · rw [if_pos h1] at hcl; exact ih used cl hcl
    · rw [if_neg h1] at hcl
      rcases List.mem_cons.mp hcl with hcl0 | hcl'
      · refine ⟨(i, m), joinMembers near m.loc i all (i :: used), hcl0, ?_⟩
        intro x hx
        exact joinMembers_near near m.loc i all (i :: used) x hx
      · exact ih _ cl hcl'

lemma buildClustersAux_fresh (near : Point → Point → Bool) (all : List (Nat × Candidate)) :
    ∀ (rest : List (Nat × Candidate)) (used : List Nat),
      ∀ cl ∈ buildClustersAux near all rest used, ∀ x ∈ cl, x.1 ∉ used := by
  intro rest
  induction rest with
  | nil => intro used cl hcl; simp [buildClustersAux] at hcl
  | cons hd rest2 ih =>
    intro used cl hcl x hx
    obtain ⟨i, m⟩ := hd
    simp only [buildClustersAux] at hcl
    by_cases h1 : i ∈ used
    · rw [if_pos h1] at hcl; exact ih used cl hcl x hx
    · rw [if_neg h1] at hcl
      rcases List.mem_cons.mp hcl with hcl0 | hcl'
      · subst hcl0
        rcases List.mem_cons.mp hx with hx0 | hx'
        · subst hx0; exact h1
        · have h3 := joinMembers_fresh near m.loc i all (i :: used) x hx'
          exact fun hu => h3 (List.mem_cons_of_mem i hu)
      · have h4 := ih (joinUsed near m.loc i all (i :: used)) cl hcl' x hx
        intro hu
        exact h4 (joinUsed_mono near m.loc i all (i :: used) (List.mem_cons_of_mem i hu))

lemma buildClustersAux_pairwise (near : Point → Point → Bool) (all : List (Nat × Candidate)) :
    ∀ (rest : List (Nat × Candidate)) (used : List Nat),
      List.Pairwise (fun cl1 cl2 => ∀ x ∈ cl1, ∀ y ∈ cl2, x.1 ≠ y.1)
        (buildClustersAux near all rest used) := by
  intro rest
  induction rest with
  | nil => intro used; simp [buildClustersAux]
  | cons hd rest2 ih =>
    intro used
    obtain ⟨i, m⟩ := hd
    simp only [buildClustersAux]
    by_cases h1 : i ∈ used
    · rw [if_pos h1]; exact ih used
    · rw [if_neg h1]
      refine List.Pairwise.cons ?_ (ih _)
      intro cl' hcl' x hx y hy
      have hy1 : y.1 ∉ joinUsed near m.loc i all (i :: used) :=
        buildClustersAux_fresh near all rest2 _ cl' hcl' y hy
      have hx1 : x.1 ∈ joinUsed near m.loc i all (i :: used) := by
        rcases List.mem_cons.mp hx with hx0 | hx'
        · subst hx0
          exact joinUsed_mono near m.loc i all (i :: used) (List.mem_cons_self i used)
        · exact joinMembers_mem_used near m.loc i all (i :: used) x hx'
      intro he
      rw [he] at hx1
      exact hy1 hx1

/-! ### Stability and sortedness of the descending insertion sort -/

lemma insertDescBy_mem {α β : Type} [LinearOrder β] (score : α → β) (z : α) :
    ∀ (l : List α) (b : α), b ∈ insertDescBy score z l ↔ b = z ∨ b ∈ l := by
  intro l
  induction l with
  | nil => intro b; simp [insertDescBy]
  | cons y ys ih =>
    intro b
    simp only [insertDescBy]
    by_cases hc : score y < score z
    · rw [if_pos hc]
      exact List.mem_cons
    · rw [if_neg hc]
      rw [List.mem_cons, ih b, List.mem_cons]
      tauto

lemma insertDescBy_sorted {α β : Type} [LinearOrder β] (score : α → β) (z : α) :
    ∀ l : List α, l.Pairwise (fun a b => score b ≤ score a) →
      (insertDescBy score z l).Pairwise (fun a b => score b ≤ score a) := by
  intro l
  induction l with
  | nil => intro _; simp [insertDescBy]
  | cons y ys ih =>
    intro h
    rw [List.pairwise_cons] at h
    obtain ⟨hy, hys⟩ := h
    simp only [insertDescBy]
    by_cases hc : score y < score z
    · rw [if_pos hc]
      refine List.Pairwise.cons ?_ (List.Pairwise.cons hy hys)
      intro b hb
      rcases List.mem_cons.mp hb with hb0 | hb'
      · subst hb0; exact le_of_lt hc
      · exact le_trans (hy b hb') (le_of_lt hc)
    · rw [if_neg hc]
      refine List.Pairwise.cons ?_ (ih hys)
      intro b hb
      rcases (insertDescBy_mem score z ys b).mp hb with hb0 | hb'
      · subst hb0; exact not_lt.mp hc
      · exact hy b hb'

lemma insertDescBy_filter {α β : Type} [LinearOrder β] (score : α → β) (z : α) (s : β) :
    ∀ l : List α, l.Pairwise (fun a b => score b ≤ score a) →
      (insertDescBy score z l).filter (fun y => decide (score y = s)) =
        (if score z = s then
          l.filter (fun y => decide (score y = s)) ++ [z]
        else l.filter (fun y => decide (score y = s))) := by
  intro l
  induction l with
  | nil =>
    intro _
    by_cases hz : score z = s
    · simp [insertDescBy, hz]
    · simp [insertDescBy, hz]
  | cons y ys ih =>
    intro h
    rw [List.pairwise_cons] at h
    obtain ⟨hy, hys⟩ := h
    simp only [insertDescBy]
    by_cases hc : score y < score z
    · rw [if_pos hc]
      by_cases hz : score z = s
      · rw [if_pos hz]
        have hnil : (y :: ys).filter (fun a => decide (score a = s)) = [] := by
          rw [List.filter_eq_nil_iff]
          intro a ha
          simp only [decide_eq_true_eq]
          intro hEq
          rcases List.mem_cons.mp ha with ha0 | ha'
          · subst ha0
            rw [hz] at hc
            exact absurd hEq (ne_of_lt hc)
          · have h2 := hy a ha'
            rw [hz] at hc
            exact absurd hEq (ne_of_lt (lt_of_le_of_lt h2 hc))
        rw [List.filter_cons_of_pos (by simp [hz]), hnil]
        rfl
      · rw [if_neg hz]
        rw [List.filter_cons_of_neg (by simp [hz])]
    · rw [if_neg hc]
      by_cases hyz : score y = s
      · rw [List.filter_cons_of_pos (by simp [hyz]), List.filter_cons_of_pos (by simp [hyz]),
          ih hys]
        by_cases hz : score z = s
        · rw [if_pos hz, if_pos hz]
          simp
        · rw [if_neg hz, if_neg hz]
      · rw [List.filter_cons_of_neg (by simp [hyz]), List.filter_cons_of_neg (by simp [hyz]),
          ih hys]

lemma sortDescBy_foldl_filter {α β : Type} [LinearOrder β] (score : α → β) (s : β) :
    ∀ (l : List α) (acc : List α), acc.Pairwise (fun a b => score b ≤ score a) →
      (List.foldl (fun acc2 z => insertDescBy score z acc2) acc l).filter
          (fun y => decide (score y = s)) =
        acc.filter (fun y => decide (score y = s)) ++
          l.filter (fun y => decide (score y = s)) := by
  intro l
  induction l with
  | nil => intro acc _; simp
  | cons z rest ih =>
    intro acc hacc
    rw [List.foldl_cons,
      ih (insertDescBy score z acc) (insertDescBy_sorted score z acc hacc),
      insertDescBy_filter score z s acc hacc]
    by_cases hz : score z = s
    · rw [if_pos hz, List.filter_cons_of_pos (by simp [hz])]
      simp
    · rw [if_neg hz, List.filter_cons_of_neg (by simp [hz])]

lemma sortDescBy_filter {α β : Type} [LinearOrder β] (score : α → β) (s : β) (l : List α) :
    (sortDescBy score l).filter (fun y => decide (score y = s)) =
      l.filter (fun y => decide (score y = s)) := by
  unfold sortDescBy
  rw [sortDescBy_foldl_filter score s l [] (by simp)]
  simp

lemma sortDescBy_sorted {α β : Type} [LinearOrder β] (score : α → β) (l : List α) :
    (sortDescBy score l).Pairwise (fun a b => score b ≤ score a) := by
  unfold sortDescBy
  have key : ∀ (l2 acc : List α), acc.Pairwise (fun a b => score b ≤ score a) →
      (List.foldl (fun acc2 z => insertDescBy score z acc2) acc l2).Pairwise
        (fun a b => score b ≤ score a) := by
    intro l2
    induction l2 with
    | nil => intro acc h; simpa using h
    | cons z rest ih =>
      intro acc h
      rw [List.foldl_cons]
      exact ih _ (insertDescBy_sorted score z acc h)
  exact key l [] (by simp)

/-! ### Facts about the grid bucketer -/

lemma bucketInsert_key (key : Int × Int) (f : Candidate) :
    ∀ (m : List ((Int × Int) × List Candidate)) (e : (Int × Int) × List Candidate),
      e ∈ bucketInsert key f m →
      (∀ e2 ∈ m, ∀ g ∈ e2.2, e2.1 = gridKey g) → gridKey f = key →
      ∀ g ∈ e.2, e.1 = gridKey g := by
  intro m
  induction m with
  | nil =>
    intro e he hm hk g hg
    simp only [bucketInsert, List.mem_singleton] at he
    subst he
    rw [List.mem_singleton] at hg
    subst hg
    exact hk.symm
  | cons hd rest ih =>
    intro e he hm hk g hg
    obtain ⟨k, fs⟩ := hd
    simp only [bucketInsert] at he
    by_cases hkk : k = key
    · rw [if_pos hkk] at he
      rcases List.mem_cons.mp he with he0 | he'
      · subst he0
        rcases List.mem_append.mp hg with hg1 | hg2
        · exact hm (k, fs) (List.mem_cons_self _ _) g hg1
        · rw [List.mem_singleton] at hg2
          subst hg2
          rw [hkk, ← hk]
      · exact hm e (List.mem_cons_of_mem _ he') g hg
    · rw [if_neg hkk] at he
      rcases List.mem_cons.mp he with he0 | he'
      · subst he0
        exact hm (k, fs) (List.mem_cons_self _ _) g hg
      · exact ih e he' (fun e2 h2 => hm e2 (List.mem_cons_of_mem _ h2)) hk g hg

lemma buildZoneMap_key (farms : List Candidate) :
    ∀ e ∈ buildZoneMap farms, ∀ f ∈ e.2, e.1 = gridKey f := by
  unfold buildZoneMap
  have key : ∀ (fs : List Candidate) (acc : List ((Int × Int) × List Candidate)),
      (∀ e ∈ acc, ∀ g ∈ e.2, e.1 = gridKey g) →
      ∀ e ∈ List.foldl (fun m f => bucketInsert (gridKey f) f m) acc fs,
        ∀ g ∈ e.2, e.1 = gridKey g := by
    intro fs
    induction fs with
    | nil => intro acc hacc; simpa using hacc
    | cons f rest ih =>
      intro acc hacc
      rw [List.foldl_cons]
      exact ih _ (fun e he => bucketInsert_key (gridKey f) f acc e he hacc rfl)
  exact key farms [] (by simp)

lemma foldl_bucket_same (k : Int × Int) :
    ∀ (fs fs0 : List Candidate), (∀ f ∈ fs, gridKey f = k) →
      List.foldl (fun m f => bucketInsert (gridKey f) f m) [(k, fs0)] fs =
        [(k, fs0 ++ fs)] := by
  intro fs
  induction fs with
  | nil => intro fs0 _; simp
  | cons f rest ih =>
    intro fs0 hall
    rw [List.foldl_cons]
    have hk : gridKey f = k := hall f (List.mem_cons_self f rest)
    have hb : bucketInsert (gridKey f) f [(k, fs0)] = [(k, fs0 ++ [f])] := by
      simp only [bucketInsert]
      rw [if_pos hk.symm]
    rw [hb, ih (fs0 ++ [f]) (fun g hg => hall g (List.mem_cons_of_mem f hg))]
    simp

lemma buildZoneMap_same (k : Int × Int) (f : Candidate) (rest : List Candidate)
    (hall : ∀ g ∈ f :: rest, gridKey g = k) :
    buildZoneMap (f :: rest) = [(k, f :: rest)] := by
  unfold buildZoneMap
  rw [List.foldl_cons]
  have h1 : bucketInsert (gridKey f) f [] = [(gridKey f, [f])] := rfl
  rw [h1, hall f (List.mem_cons_self f rest),
    foldl_bucket_same k rest [f] (fun g hg => hall g (List.mem_cons_of_mem f hg))]
  simp

lemma createZones_nine (farms : List Candidate) (k : Int × Int)
    (hall : ∀ f ∈ farms, gridKey f = k) (hlen : farms.length = 9) :
    createZones farms = [] := by
  obtain ⟨f, rest, rfl⟩ : ∃ f rest, farms = f :: rest := by
    cases farms with
    | nil => simp at hlen
    | cons f rest => exact ⟨f, rest, rfl⟩
  simp only [createZones, buildZoneMap_same k f rest hall, List.map_cons, List.map_nil]
  have hlen' : (mkGZone (f :: rest)).farms.length = 9 := hlen
  simp [List.filter_cons, hlen, hlen', MIN_ZONE_FARMS, sortDescBy]

lemma createZones_ten (farms : List Candidate) (k : Int × Int)
    (hall : ∀ f ∈ farms, gridKey f = k) (hlen : farms.length = 10) :
    createZones farms = [mkGZone farms] := by
  obtain ⟨f, rest, rfl⟩ : ∃ f rest, farms = f :: rest := by
    cases farms with
    | nil => simp at hlen
    | cons f rest => exact ⟨f, rest, rfl⟩
  simp only [createZones, buildZoneMap_same k f rest hall, List.map_cons, List.map_nil]
  have hlen' : (mkGZone (f :: rest)).farms.length = 10 := hlen
  simp [List.filter_cons, hlen, hlen', MIN_ZONE_FARMS, sortDescBy, insertDescBy]

/-! ### Claim theorems -/

/-- C1: with the hardcoded threshold 0.9, `RADIUS_KM = 5` and `MIN_POINTS = 2`,
the candidates (id 1 at (10, 10), p 0.95), (id 2 at (10.01, 10.01), p 0.92),
(id 3 at (50, 50), p 0.99) produce exactly the clusters {1, 2} and the
singleton {3}, and the resulting zone list holds exactly one zone, centered at
the arithmetic mean (10.005, 10.005) with 2 members; candidate 3 stays a
singleton below `MIN_POINTS` and produces no zone. -/
theorem spec_C1 :
    buildClusters nearKm
        (([cand1, cand2, cand3].filter (fun m => decide ((0.9 : ℚ) ≤ m.prob))).enum) =
      [[(0, cand1), (1, cand2)], [(2, cand3)]]
    ∧ computeHighDensityZones nearKm [cand1, cand2, cand3] =
      [{ center := ⟨2001 / 200, 2001 / 200⟩, total := 2, score := 2 }] := by
  constructor
  · rw [strong_eval, enum_eval]
    exact clusters_eval
  · simp only [computeHighDensityZones]
    rw [strong_eval, enum_eval, if_neg (by norm_num), clusters_eval, zones_eval]

/-- C2: in every cluster output by the radius-linkage clusterer, every
non-seed member is within `RADIUS_KM` geodesic distance of the cluster's seed
point, and no candidate occurrence (index in the strong list) appears in two
different clusters of the same run. -/
theorem spec_C2 (cands : List Candidate) :
    (∀ cl ∈ buildClusters nearKm
        ((cands.filter (fun m => decide ((0.9 : ℚ) ≤ m.prob))).enum),
      ∃ s ms, cl = s :: ms ∧ ∀ x ∈ ms, distanceKm s.2.loc x.2.loc ≤ RADIUS_KM)
    ∧ List.Pairwise (fun cl1 cl2 => ∀ x ∈ cl1, ∀ y ∈ cl2, x.1 ≠ y.1)
        (buildClusters nearKm
          ((cands.filter (fun m => decide ((0.9 : ℚ) ≤ m.prob))).enum)) := by
  constructor
  · intro cl hcl
    unfold buildClusters at hcl
    obtain ⟨s, ms, hcl_eq, hnear⟩ := buildClustersAux_shape nearKm _ _ _ cl hcl
    refine ⟨s, ms, hcl_eq, ?_⟩
    intro x hx
    have h := hnear x hx
    unfold nearKm at h
    exact of_decide_eq_true h
  · unfold buildClusters
    exact buildClustersAux_pairwise nearKm _ _ _

/-- Witness for C2: at the scenario input, the cluster [(0, cand1), (1, cand2)]
is produced and its non-seed member is within `RADIUS_KM` of the seed. -/
theorem spec_C2_witness :
    [(0, cand1), (1, cand2)] ∈ buildClusters nearKm
        (([cand1, cand2, cand3].filter (fun m => decide ((0.9 : ℚ) ≤ m.prob))).enum)
    ∧ ∃ s ms, ([(0, cand1), (1, cand2)] : List (Nat × Candidate)) = s :: ms ∧
        ∀ x ∈ ms, distanceKm s.2.loc x.2.loc ≤ RADIUS_KM := by
  have hmem : [(0, cand1), (1, cand2)] ∈ buildClusters nearKm
      (([cand1, cand2, cand3].filter (fun m => decide ((0.9 : ℚ) ≤ m.prob))).enum) := by
    rw [strong_eval, enum_eval, clusters_eval]
    exact List.mem_cons_self _ _
  exact ⟨hmem, (spec_C2 [cand1, cand2, cand3]).1 _ hmem⟩

/-- C3: the zone list emitted by recomputation never exceeds 8 entries, under
both the radius-linkage (0-2) and the cluster-rescoring (0-1) strategies, and
on each recompute with zones enabled the `window.farmZones` list is replaced
wholesale, independently of its previous contents. -/
theorem spec_C3 :
    (∀ (near : Point → Point → Bool) (cands : List Candidate),
        (computeHighDensityZones near cands).length ≤ 8)
    ∧ (∀ vcs : List (Point × List Candidate), (clusterRescoreZones vcs).length ≤ 8)
    ∧ (∀ (near : Point → Point → Bool) (cands : List Candidate) (prev prev' : List Zone),
        recomputeFarmZones near cands true prev = recomputeFarmZones near cands true prev'
        ∧ recomputeFarmZones near cands true prev = computeHighDensityZones near cands) := by
  refine ⟨?_, ?_, ?_⟩
  · intro near cands
    simp only [computeHighDensityZones]
    split
    · simp
    · simp only [zonesFromClusters]
      split
      · simp
      · rw [List.length_take]
        exact min_le_left _ _
  · intro vcs
    simp only [clusterRescoreZones]
    split
    · simp
    · rw [List.length_take]
      exact min_le_left _ _
  · intro near cands prev prev'
    exact ⟨rfl, rfl⟩

/-- C4: the grid bucketer assigns every candidate to the bucket keyed by
(floor(lng / 0.5), floor(lat / 0.5)); 9 candidates in a single cell yield no
zone, while 10 candidates in a single cell yield exactly one zone whose
center is the arithmetic mean of the members' coordinates. -/
theorem spec_C4 :
    (∀ farms : List Candidate, ∀ e ∈ buildZoneMap farms, ∀ f ∈ e.2, e.1 = gridKey f)
    ∧ (∀ f : Candidate,
        gridKey f = (Int.floor (f.lng / (0.5 : ℚ)), Int.floor (f.lat / (0.5 : ℚ))))
    ∧ (∀ (farms : List Candidate) (k : Int × Int),
        (∀ f ∈ farms, gridKey f = k) → farms.length = 9 → createZones farms = [])
    ∧ (∀ (farms : List Candidate) (k : Int × Int),
        (∀ f ∈ farms, gridKey f = k) → farms.length = 10 →
          createZones farms = [mkGZone farms])
    ∧ (∀ fs : List Candidate,
        (mkGZone fs).centerLat = (fs.map Candidate.lat).sum / (fs.length : ℚ) ∧
        (mkGZone fs).centerLng = (fs.map Candidate.lng).sum / (fs.length : ℚ)) :=
  ⟨buildZoneMap_key, fun _ => rfl, createZones_nine, createZones_ten,
    fun _ => ⟨rfl, rfl⟩⟩

/-- Witness for C4: ten farms in the single grid cell (20, 20) produce exactly
one zone whose record is the bucket's mean-centered record. -/
theorem spec_C4_witness :
    (∀ f ∈ farmsTen, gridKey f = (20, 20))
    ∧ farmsTen.length = 10
    ∧ createZones farmsTen = [mkGZone farmsTen] := by
  have hall : ∀ f ∈ farmsTen, gridKey f = (20, 20) := by
    intro f hf
    simp only [farmsTen, List.mem_cons, List.not_mem_nil, or_false] at hf
    rcases hf with rfl | rfl | rfl | rfl | rfl | rfl | rfl | rfl | rfl | rfl <;>
      norm_num [gridKey, ZONE_GRID_SIZE]
  exact ⟨hall, rfl, spec_C4.2.2.2.1 farmsTen (20, 20) hall rfl⟩

/-- C5 counterexample: the grid strategy's candidate pre-filter in
`loadFarmData` uses a strict comparison, so a candidate whose probability is
exactly the threshold `MIN_FARM_PROBABILITY = 0.5` is NOT included, refuting
the claim that every filtering boundary in the core is inclusive. -/
theorem spec_C5_counterexample :
    MIN_FARM_PROBABILITY = 0.5 ∧
      (⟨7, 10, 10, 0.5⟩ : Candidate) ∉ loadFarmFilter [⟨7, 10, 10, 0.5⟩] := by
  constructor
  · rfl
  · norm_num [loadFarmFilter, MIN_FARM_PROBABILITY]

/-- C5 (amended): the marker filter `applyFilter` is inclusive — a candidate
with probability exactly equal to the threshold is kept — but the grid
strategy's candidate pre-filter in `loadFarmData` is strict (`>`), excluding
candidates whose probability equals `MIN_FARM_PROBABILITY`. -/
theorem spec_C5_amended (cands : List Candidate) (minP : ℚ) :
    (∀ c ∈ cands, c.prob = minP → c ∈ applyFilter minP cands)
    ∧ (∀ c ∈ loadFarmFilter cands, MIN_FARM_PROBABILITY < c.prob)
    ∧ (∀ c ∈ cands, c.prob = MIN_FARM_PROBABILITY → c ∉ loadFarmFilter cands) := by
  refine ⟨?_, ?_, ?_⟩
  · intro c hc hp
    unfold applyFilter
    rw [List.mem_filter]
    exact ⟨hc, by simp [hp]⟩
  · intro c hc
    unfold loadFarmFilter at hc
    rw [List.mem_filter] at hc
    simpa using hc.2
  · intro c _ hp hmem
    unfold loadFarmFilter at hmem
    rw [List.mem_filter] at hmem
    have h2 := hmem.2
    simp only [decide_eq_true_eq] at h2
    rw [hp] at h2
    exact lt_irrefl _ h2

/-- Witness for C5 (amended): a candidate with probability exactly 0.95 is
kept by `applyFilter 0.95`. -/
theorem spec_C5_witness :
    cand1 ∈ [cand1] ∧ cand1.prob = (0.95 : ℚ) ∧ cand1 ∈ applyFilter 0.95 [cand1] := by
  refine ⟨List.mem_singleton.mpr rfl, rfl, ?_⟩
  exact (spec_C5_amended [cand1] 0.95).1 cand1 (List.mem_singleton.mpr rfl) rfl

/-- C6: the source `distanceKm` applies no clamping to the haversine argument.
At the antipodal pair a = (-45, 0), b = (45, 180) the argument reaches exactly
1, the boundary of the `sqrt(1 - x)` domain; in exact real arithmetic the
result is still the finite half-circumference `6371 * π`, so only
floating-point drift past 1 (which the spec says must be clamped, and the
code does not clamp) can produce an undefined result. -/
theorem spec_C6 :
    haversineX ⟨-45, 0⟩ ⟨45, 180⟩ = 1 ∧
      distanceKm ⟨-45, 0⟩ ⟨45, 180⟩ = 6371 * Real.pi := by
  have hx : haversineX ⟨-45, 0⟩ ⟨45, 180⟩ = 1 := by
    simp only [haversineX]
    have e1 : ((45 : ℚ) : ℝ) - ((-45 : ℚ) : ℝ) = 90 := by norm_num
    have e2 : ((180 : ℚ) : ℝ) - ((0 : ℚ) : ℝ) = 180 := by norm_num
    have e3 : ((-45 : ℚ) : ℝ) = -45 := by norm_num
    have e4 : ((45 : ℚ) : ℝ) = 45 := by norm_num
    rw [e1, e2, e3, e4]
    have a1 : (90 : ℝ) * Real.pi / 180 / 2 = Real.pi / 4 := by ring
    have a2 : (180 : ℝ) * Real.pi / 180 / 2 = Real.pi / 2 := by ring
    have a3 : (-45 : ℝ) * Real.pi / 180 = -(Real.pi / 4) := by ring
    have a4 : (45 : ℝ) * Real.pi / 180 = Real.pi / 4 := by ring
    rw [a1, a2, a3, a4, Real.sin_pi_div_four, Real.sin_pi_div_two, Real.cos_neg,
      Real.cos_pi_div_four]
    have h2 : Real.sqrt 2 ^ 2 = 2 := Real.sq_sqrt (by norm_num)
    nlinarith [h2]
  refine ⟨hx, ?_⟩
  unfold distanceKm
  rw [hx, show (1 : ℝ) - 1 = 0 by norm_num, Real.sqrt_zero, Real.sqrt_one]
  unfold atan2
  rw [if_neg (lt_irrefl 0), if_neg (lt_irrefl 0), if_pos (by norm_num : (0 : ℝ) < 1)]
  ring

/-- C7: the candidate filter is antitone in the threshold — for t1 < t2 the
t2-filtered list is a sublist (hence subset) of the t1-filtered list — and the
filter preserves the input order of the candidates it keeps. -/
theorem spec_C7 (cands : List Candidate) (t1 t2 : ℚ) (h : t1 < t2) :
    (applyFilter t2 cands).Sublist (applyFilter t1 cands)
    ∧ (applyFilter t1 cands).Sublist cands := by
  constructor
  · unfold applyFilter
    apply List.monotone_filter_right
    intro a ha
    simp only [decide_eq_true_eq] at ha ⊢
    linarith
  · exact List.filter_sublist cands

/-- Witness for C7 at thresholds 0 < 1 on a singleton list. -/
theorem spec_C7_witness :
    ((0 : ℚ) < 1)
    ∧ (applyFilter 1 [cand1]).Sublist (applyFilter 0 [cand1])
    ∧ (applyFilter 0 [cand1]).Sublist [cand1] :=
  ⟨by norm_num, (spec_C7 [cand1] 0 1 (by norm_num)).1, (spec_C7 [cand1] 0 1 (by norm_num)).2⟩

/-- C8: the descending sort used by the zone selector is stable — for every
score value the equal-score entries keep their relative input order, the
output is sorted descending — and on scores [5, 3, 5, 1] the two score-5
zones keep their original relative order. -/
theorem spec_C8 :
    (∀ (zs : List Zone) (s : ℚ),
        (sortDescBy Zone.score zs).filter (fun z => decide (z.score = s)) =
          zs.filter (fun z => decide (z.score = s)))
    ∧ (∀ zs : List Zone,
        (sortDescBy Zone.score zs).Pairwise (fun a b => b.score ≤ a.score))
    ∧ sortDescBy Zone.score
        [⟨⟨0, 0⟩, 10, 5⟩, ⟨⟨1, 1⟩, 20, 3⟩, ⟨⟨2, 2⟩, 30, 5⟩, ⟨⟨3, 3⟩, 40, 1⟩] =
      [⟨⟨0, 0⟩, 10, 5⟩, ⟨⟨2, 2⟩, 30, 5⟩, ⟨⟨1, 1⟩, 20, 3⟩, ⟨⟨3, 3⟩, 40, 1⟩] := by
  refine ⟨?_, ?_, ?_⟩
  · intro zs s
    exact sortDescBy_filter Zone.score s zs
  · intro zs
    exact sortDescBy_sorted Zone.score zs
  · norm_num [sortDescBy, insertDescBy]

/-- C9: the empty candidate list yields an empty zone list without error, and
a recompute with zones enabled on an empty candidate list leaves the zones
output empty regardless of the previous zones (no stale data). -/
theorem spec_C9 :
    (∀ near : Point → Point → Bool, computeHighDensityZones near [] = [])
    ∧ ∀ (near : Point → Point → Bool) (prev : List Zone),
        recomputeFarmZones near [] true prev = [] := by
  constructor
  · intro near
    rfl
  · intro near prev
    rfl

/-- C10: the radius-linkage zone computation reads the full loaded marker set
at the hardcoded threshold 0.9, so the zone output of `applyFilter` is
identical for any two slider values `minP1`, `minP2`, and with zones enabled
it equals the zone computation over the full marker set. -/
theorem spec_C10 (near : Point → Point → Bool) (st : AppState) (minP1 minP2 : ℚ) :
    (applyFilterState near minP1 st).farmZones = (applyFilterState near minP2 st).farmZones
    ∧ (applyFilterState near minP1 { st with zonesEnabled := true }).farmZones =
        computeHighDensityZones near st.allMarkers := by
  exact ⟨rfl, rfl⟩

end FarmMap
